import Mathlib

/-!
Verification development for the `links-miskakyto` URL shortener.

The repository ships a Next.js frontend (TypeScript, under `src/`) and
documents a FastAPI backend whose Python sources are not part of the file
set; the backend's data model and operations (Link Registry, Redirect
Resolver, Analytics Aggregator over a SQLite store) are therefore modelled
here from the specification, while the frontend pieces (the axios request
interceptor in `src/lib/api.ts` and the `getClicksByDate` helper of the
Analytics component) are translated directly from the TypeScript source.

Timestamps are modelled as natural numbers (milliseconds); identifiers and
short codes as strings.
-/

set_option autoImplicit false

namespace LinkShortener

/-- Modelled from the spec: the `Link` record of the data model (§3) and the
SQLAlchemy `Link` model quoted in the Alembic summary document:
`id` (opaque string), `original_url`, globally unique `short_code`, optional
`description`, `click_count` counter, `created_at` timestamp, creator
identity (`created_by`, `created_by_name`) and the scoping `tenant_id`. -/
structure Link where
  id : String
  original_url : String
  short_code : String
  description : Option String
  click_count : Nat
  created_at : Nat
  created_by : String
  created_by_name : String
  tenant_id : String
  deriving DecidableEq, Repr

/-- Modelled from the spec: the `Click` record of the data model (§3) and the
SQLAlchemy `Click` model: auto-increment `id`, `link_id` foreign key to a
Link (cascade-deleted with it), `clicked_at` timestamp, optional
`ip_address` and `user_agent` captured from the request. -/
structure Click where
  id : Nat
  link_id : String
  clicked_at : Nat
  ip_address : Option String
  user_agent : Option String
  deriving DecidableEq, Repr

/-- Modelled from the spec: the Persistent Store (§2) — the two tables of
the embedded database, plus the auto-increment counter for Click ids. -/
structure Store where
  links : List Link
  clicks : List Click
  nextClickId : Nat
  deriving DecidableEq, Repr

/-- The empty store: no links, no clicks. -/
def Store.empty : Store := { links := [], clicks := [], nextClickId := 0 }

/-- Modelled from the spec: the error taxonomy of §7 — `ValidationError`
(400), `ConflictError` (409), `NotFoundError` (404), `ExhaustedError`
(503/500).  `Unauthorized` belongs to the out-of-scope Auth Gate. -/
inductive ApiError where
  | validationError
  | conflictError
  | notFoundError
  | exhaustedError
  deriving DecidableEq, Repr

/-- Modelled from the spec: the verified caller identity produced by the
Auth Gate — `{tenant_id, user_id, display_name}` (§6). -/
structure Identity where
  tenant_id : String
  user_id : String
  display_name : String
  deriving DecidableEq, Repr

/-- Modelled from the spec: request metadata captured by the Redirect
Resolver — ip and user agent (§4.2). -/
structure RequestMeta where
  ip_address : Option String
  user_agent : Option String
  deriving DecidableEq, Repr

/-- Character class of the allowed short-code charset: letters, digits,
hyphen, underscore — the frontend input pattern is `[a-zA-Z0-9\-_]+`. -/
def allowedChar (c : Char) : Bool :=
  c.isAlpha || c.isDigit || c = '-' || c = '_'

/-- Modelled from the spec: a custom short code is valid when it matches the
allowed charset; the frontend pattern additionally requires nonemptiness. -/
def isValidCode (s : String) : Bool :=
  !s.toList.isEmpty && s.toList.all allowedChar

/-- Modelled from the spec: `original_url` is validated as a well-formed
absolute URL; modelled minimally as carrying an http or https scheme. -/
def isValidUrl (s : String) : Bool :=
  "http://".toList.isPrefixOf s.toList || "https://".toList.isPrefixOf s.toList

/-- Lookup of a link by exact, case-sensitive short code (§4.2). -/
def Store.findByCode (st : Store) (code : String) : Option Link :=
  st.links.find? (fun l => l.short_code == code)

/-- Tenant-scoped lookup by link id: a link is visible only to callers of
its own tenant (§4.1); a cross-tenant id behaves exactly like a missing
one. -/
def Store.findOwned (st : Store) (id tenant : String) : Option Link :=
  st.links.find? (fun l => l.id == id && l.tenant_id == tenant)

/-- The Click rows referencing a given link id. -/
def Store.clicksOf (st : Store) (id : String) : List Click :=
  st.clicks.filter (fun c => c.link_id == id)

/-- Modelled from the spec: bound on generation retries (§4.1 — a small
bounded number of attempts before `ExhaustedError`). -/
def genAttempts : Nat := 5

/-- Modelled from the spec: the generate-and-retry loop for automatic short
codes — try `gen 0`, `gen 1`, … and keep the first code not already in
use; give up after `k` attempts. -/
def pickGenerated (st : Store) (gen : Nat → String) (k : Nat) : Option String :=
  (List.range k).findSome? (fun i =>
    let c := gen i
    if (st.findByCode c).isSome then none else some c)

/-- Insert a freshly created link row. -/
def Store.insertLink (st : Store) (l : Link) : Store :=
  { st with links := l :: st.links }

/-- Modelled from the spec: `create` of the Link Registry (§4.1).  Validates
the URL, then the custom code's charset and uniqueness (global, across all
tenants — `ConflictError` on collision); without a custom code, generates
one with bounded retries (`ExhaustedError` when all collide).  The new link
starts with `click_count = 0` and is stamped with the caller's verified
identity.  `newId` and `now` stand for the generated opaque id and the
clock. -/
def createLink (st : Store) (original_url : String) (custom : Option String)
    (descr : Option String) (who : Identity) (now : Nat) (newId : String)
    (gen : Nat → String) : Except ApiError (Store × Link) :=
  if !isValidUrl original_url then .error .validationError
  else
    match custom with
    | some code =>
      if !isValidCode code then .error .validationError
      else if (st.findByCode code).isSome then .error .conflictError
      else
        let l : Link :=
          { id := newId, original_url := original_url, short_code := code,
            description := descr, click_count := 0, created_at := now,
            created_by := who.user_id, created_by_name := who.display_name,
            tenant_id := who.tenant_id }
        .ok (st.insertLink l, l)
    | none =>
      match pickGenerated st gen genAttempts with
      | none => .error .exhaustedError
      | some code =>
        let l : Link :=
          { id := newId, original_url := original_url, short_code := code,
            description := descr, click_count := 0, created_at := now,
            created_by := who.user_id, created_by_name := who.display_name,
            tenant_id := who.tenant_id }
        .ok (st.insertLink l, l)

/-- Modelled from the spec: `get` of the Link Registry — `NotFoundError` if
absent or if the link's tenant differs from the caller's (§4.1). -/
def getLink (st : Store) (id tenant : String) : Except ApiError Link :=
  match st.findOwned id tenant with
  | none => .error .notFoundError
  | some l => .ok l

/-- Modelled from the spec: `update` of the Link Registry — only the
description is mutable; same tenant-isolation rule as `get` (§4.1). -/
def updateLink (st : Store) (id tenant : String) (descr : Option String) :
    Except ApiError (Store × Link) :=
  match st.findOwned id tenant with
  | none => .error .notFoundError
  | some l =>
    let l' : Link := { l with description := descr }
    .ok ({ st with links := st.links.map (fun x => if x.id == l.id then l' else x) }, l')

/-- Modelled from the spec: `delete` of the Link Registry — removes the link
and cascades deletion of its Click rows; `NotFoundError` when the id is
absent or owned by another tenant (§4.1, §3). -/
def deleteLink (st : Store) (id tenant : String) : Except ApiError Store :=
  match st.findOwned id tenant with
  | none => .error .notFoundError
  | some _ =>
    .ok { st with links := st.links.filter (fun x => x.id != id),
                  clicks := st.clicks.filter (fun c => c.link_id != id) }

/-- Modelled from the spec: the single unit of work of click recording —
inserting the Click row and incrementing the owning link's `click_count`
happen in one atomic store transition (§3, §4.2, §5). -/
def recordClick (st : Store) (l : Link) (meta : RequestMeta) (now : Nat) : Store :=
  { links := st.links.map (fun x =>
      if x.id == l.id then { x with click_count := x.click_count + 1 } else x),
    clicks := { id := st.nextClickId, link_id := l.id, clicked_at := now,
                ip_address := meta.ip_address,
                user_agent := meta.user_agent } :: st.clicks,
    nextClickId := st.nextClickId + 1 }

/-- Modelled from the spec: `resolve` of the Redirect Resolver (§4.2) —
case-sensitive exact lookup; on hit, record the click atomically and return
the destination URL; on miss return `none` (the caller's uniform 404). -/
def resolve (st : Store) (code : String) (meta : RequestMeta) (now : Nat) :
    Option (Store × String) :=
  match st.findByCode code with
  | none => none
  | some l => some (recordClick st l meta now, l.original_url)

/-- A batch of successive resolves of one short code, each with its request
metadata and timestamp; `none` as soon as one misses. -/
def resolveN (st : Store) (code : String) :
    List (RequestMeta × Nat) → Option Store
  | [] => some st
  | (m, t) :: rest =>
    match resolve st code m t with
    | none => none
    | some (st', _) => resolveN st' code rest

/-- One exposed recent click of the analytics payload: `clicked_at`,
`ip_address`, `user_agent` (§4.3). -/
structure RecentClick where
  clicked_at : Nat
  ip_address : Option String
  user_agent : Option String
  deriving DecidableEq, Repr

/-- Projection of a stored Click row to its exposed analytics fields. -/
def toRecent (c : Click) : RecentClick :=
  { clicked_at := c.clicked_at, ip_address := c.ip_address,
    user_agent := c.user_agent }

/-- Modelled from the spec: the analytics payload — `total_clicks` read from
the link's cached counter, and the recent click list (§4.3). -/
structure AnalyticsResult where
  link_id : String
  total_clicks : Nat
  recent_clicks : List RecentClick
  deriving DecidableEq, Repr

/-- Descending order on Click rows: newer (larger `clicked_at`) first. -/
def newerFirst (a b : Click) : Prop := b.clicked_at ≤ a.clicked_at

instance : DecidableRel newerFirst := fun a b =>
  inferInstanceAs (Decidable (b.clicked_at ≤ a.clicked_at))

instance : IsTotal Click newerFirst :=
  ⟨fun a b => Nat.le_total b.clicked_at a.clicked_at⟩

instance : IsTrans Click newerFirst :=
  ⟨fun _ _ _ h1 h2 => Nat.le_trans h2 h1⟩

/-- Modelled from the spec: the bound on the recent-click list (§4.3 — "N
fixed at a small bound, e.g., 100"; the Analytics component renders
"clicks in last 100"). -/
def recentBound : Nat := 100

/-- Modelled from the spec: `get_analytics` of the Analytics Aggregator
(§4.3) — `NotFoundError` unless the link exists and is owned by the
caller's tenant; otherwise `total_clicks` is the link's cached
`click_count` and `recent_clicks` the most recent at most 100 Click rows,
newest first, each exposing `clicked_at`, `ip_address`, `user_agent`. -/
def getAnalytics (st : Store) (id tenant : String) :
    Except ApiError AnalyticsResult :=
  match st.findOwned id tenant with
  | none => .error .notFoundError
  | some l =>
    .ok { link_id := l.id, total_clicks := l.click_count,
          recent_clicks :=
            (((st.clicksOf l.id).insertionSort newerFirst).take recentBound).map toRecent }

/-- Store well-formedness: link ids are pairwise distinct (primary key) and
short codes are pairwise distinct (the global unique index). -/
def Store.WF (st : Store) : Prop :=
  (st.links.map Link.id).Nodup ∧ (st.links.map Link.short_code).Nodup

instance (st : Store) : Decidable st.WF :=
  inferInstanceAs (Decidable (_ ∧ _))

end LinkShortener

namespace Frontend

/-- Outcome of one MSAL token-acquisition call (`acquireTokenSilent` or
`acquireTokenPopup`): either the promise resolves — with or without an
`idToken` in the response — or it rejects with an error carrying an
`errorCode`. -/
inductive TokenOutcome where
  | resolved (idToken : Option String)
  | rejected (errorCode : String)
  deriving DecidableEq, Repr

/-- Behaviour of the MSAL instance as seen by one interceptor run:
`getAllAccounts` either throws or returns the signed-in account list, and
the two acquisition calls have fixed outcomes.  Translated from the
behaviour points of `api.interceptors.request.use` in `src/lib/api.ts`. -/
structure MsalEnv where
  accountsResult : Except Unit (List String)
  silent : TokenOutcome
  popup : TokenOutcome
  deriving Repr

/-- The request configuration as far as the interceptor touches it: the
optional `Authorization` header. -/
structure ReqConfig where
  authorization : Option String
  deriving DecidableEq, Repr

/-- The MSAL error codes on which the interceptor falls back to interactive
acquisition (`consent_required`, `interaction_required`). -/
def interactiveCodes : List String := ["consent_required", "interaction_required"]

/-- Translated from `api.interceptors.request.use` in `src/lib/api.ts`
(lines 21–70): in test mode attach the mock bearer token; otherwise, with an
MSAL instance present, look up the accounts (any throw is swallowed by the
outer catch), and when one exists try `acquireTokenSilent`; on an
`idToken`-bearing response attach it as a bearer token; on
`consent_required` / `interaction_required` retry with `acquireTokenPopup`
under its own try/catch.  Every other path falls through to `return config`
with no `Authorization` header — the interceptor always resolves with the
request configuration. -/
def authInterceptor (testMode : Bool) (msal : Option MsalEnv) : ReqConfig :=
  if testMode then { authorization := some "Bearer test-token" }
  else
    match msal with
    | none => { authorization := none }
    | some env =>
      match env.accountsResult with
      | .error _ => { authorization := none }
      | .ok accounts =>
        if accounts.isEmpty then { authorization := none }
        else
          match env.silent with
          | .resolved (some tok) => { authorization := some ("Bearer " ++ tok) }
          | .resolved none => { authorization := none }
          | .rejected ec =>
            if ec ∈ interactiveCodes then
              match env.popup with
              | .resolved (some tok) => { authorization := some ("Bearer " ++ tok) }
              | _ => { authorization := none }
            else { authorization := none }

/-- One recent click as consumed by the Analytics component: the
`clicked_at` instant (modelled as a millisecond timestamp) and the shown
`ip_address`. -/
structure FrontClick where
  clicked_at : Nat
  ip_address : String
  deriving DecidableEq, Repr

/-- One step of building the `clicksByDate` record of `getClicksByDate`:
`clicksByDate[date] = (clicksByDate[date] || 0) + 1` on a JavaScript object,
i.e. an insertion-ordered association list from date key to count. -/
def bumpDate (acc : List (Nat × Nat)) (d : Nat) : List (Nat × Nat) :=
  match acc with
  | [] => [(d, 1)]
  | (k, v) :: rest => if k = d then (k, v + 1) :: rest else (k, v) :: bumpDate rest d

/-- Ascending order on date entries: sorted by the date key, as in the
component's `sort` comparator on the parsed dates. -/
def dateLE (a b : Nat × Nat) : Prop := a.1 ≤ b.1

instance : DecidableRel dateLE := fun a b =>
  inferInstanceAs (Decidable (a.1 ≤ b.1))

instance : IsTotal (Nat × Nat) dateLE := ⟨fun a b => Nat.le_total a.1 b.1⟩

instance : IsTrans (Nat × Nat) dateLE := ⟨fun _ _ _ => Nat.le_trans⟩

/-- Translated from `getClicksByDate` in the Analytics component
(`components/Analytics.tsx`): fold the clicks into the per-date count
record (`toDateString` bucketing is abstracted into the calendar-date
function `dateKey`), list its entries in insertion order, sort them by date
ascending, and keep the last seven (`slice(-7)`). -/
def getClicksByDate (dateKey : Nat → Nat) (clicks : List FrontClick) :
    List (Nat × Nat) :=
  let entries := clicks.foldl (fun acc c => bumpDate acc (dateKey c.clicked_at)) []
  let sorted := entries.insertionSort dateLE
  sorted.drop (sorted.length - 7)

/-- The count recorded in the per-date association list for key `d` (0 when
absent), used to specify `bumpDate` folds. -/
def valAt (acc : List (Nat × Nat)) (d : Nat) : Nat :=
  match acc.find? (fun p => p.1 == d) with
  | some p => p.2
  | none => 0

end Frontend

namespace LinkShortener

/-- Sample tenant-`T1` identity used by concrete witnesses. -/
def sampleIdentity : Identity :=
  { tenant_id := "T1", user_id := "u1", display_name := "User One" }

/-- Sample tenant-`T2` identity used by concrete witnesses. -/
def sampleIdentity2 : Identity :=
  { tenant_id := "T2", user_id := "u2", display_name := "User Two" }

/-- Sample short-code generator used by concrete witnesses. -/
def sampleGen : Nat → String := fun i => String.append "gen" (toString i)

/-- The link created by the sample `createLink` call of the witnesses. -/
def sampleLink : Link :=
  { id := "L1", original_url := "https://example.com/page",
    short_code := "mycode", description := none, click_count := 0,
    created_at := 0, created_by := "u1", created_by_name := "User One",
    tenant_id := "T1" }

/-- Store holding just `sampleLink`, no clicks. -/
def sampleStore : Store := { links := [sampleLink], clicks := [], nextClickId := 0 }

/-- Sample request metadata for resolve calls. -/
def sampleMeta : RequestMeta :=
  { ip_address := some "1.2.3.4", user_agent := some "UA" }

/-- `sampleLink` after two recorded clicks. -/
def sampleLink2 : Link := { sampleLink with click_count := 2 }

/-- A first sample click row on `sampleLink`. -/
def sampleClick1 : Click :=
  { id := 0, link_id := "L1", clicked_at := 1, ip_address := none, user_agent := none }

/-- A second, newer sample click row on `sampleLink`. -/
def sampleClick2 : Click :=
  { id := 1, link_id := "L1", clicked_at := 2, ip_address := some "9.9.9.9",
    user_agent := some "UA" }

/-- Store holding `sampleLink2` together with its two click rows. -/
def sampleStore2 : Store :=
  { links := [sampleLink2], clicks := [sampleClick2, sampleClick1], nextClickId := 2 }

/-- `sampleStore2` after deleting link `L1`: empty tables, auto-increment
counter untouched. -/
def sampleStoreDel : Store := { links := [], clicks := [], nextClickId := 2 }

end LinkShortener

namespace Frontend

/-- MSAL environment whose `getAllAccounts` throws. -/
def envThrow : MsalEnv :=
  { accountsResult := .error (), silent := .resolved none, popup := .resolved none }

/-- MSAL environment with no signed-in account. -/
def envNoAccounts : MsalEnv :=
  { accountsResult := .ok [], silent := .resolved none, popup := .resolved none }

/-- MSAL environment where silent acquisition resolves without an id token. -/
def envSilentNone : MsalEnv :=
  { accountsResult := .ok ["acct"], silent := .resolved none, popup := .resolved none }

/-- MSAL environment where silent acquisition fails with a non-interactive
error code. -/
def envOtherErr : MsalEnv :=
  { accountsResult := .ok ["acct"], silent := .rejected "server_error",
    popup := .resolved (some "p") }

/-- MSAL environment where both silent and interactive acquisition fail. -/
def envPopupFail : MsalEnv :=
  { accountsResult := .ok ["acct"], silent := .rejected "consent_required",
    popup := .rejected "user_cancelled" }

/-- MSAL environment where silent acquisition succeeds. -/
def envSilentTok : MsalEnv :=
  { accountsResult := .ok ["acct"], silent := .resolved (some "tok123"),
    popup := .resolved none }

/-- Calendar-date bucketing by whole days of milliseconds, a concrete
instance of the abstract `dateKey`. -/
def sampleDateKey : Nat → Nat := fun t => t / 86400000

/-- Sample recent-click list: two clicks on day 0, one on day 1. -/
def sampleClicks : List FrontClick :=
  [{ clicked_at := 1, ip_address := "a" },
   { clicked_at := 86400001, ip_address := "b" },
   { clicked_at := 2, ip_address := "c" }]

end Frontend

/-! ## Helper lemmas about the store model -/

namespace LinkShortener

/-- Two members of a list mapping to the same key are equal when the mapped
list has no duplicates. -/
theorem mem_eq_of_nodup_map {α β : Type} {f : α → β} {l : List α}
    (h : (l.map f).Nodup) {a b : α} (ha : a ∈ l) (hb : b ∈ l)
    (hf : f a = f b) : a = b :=
  List.inj_on_of_nodup_map h ha hb hf

/-- In a well-formed store, looking up a stored link's own short code finds
exactly that link. -/
theorem findByCode_self {st : Store} {l : Link} (hwf : st.WF)
    (hl : l ∈ st.links) : st.findByCode l.short_code = some l := by
  unfold Store.findByCode
  cases hfind : st.links.find? (fun x => x.short_code == l.short_code) with
  | none =>
    have := List.find?_eq_none.mp hfind l hl
    simp at this
  | some x =>
    have hx := List.find?_some hfind
    have hmem := List.mem_of_find?_eq_some hfind
    simp only [beq_iff_eq] at hx
    have hxl : x = l := mem_eq_of_nodup_map hwf.2 hmem hl hx
    rw [hxl]

/-- In a well-formed store, the tenant-scoped lookup of a stored link by its
own id and tenant finds exactly that link. -/
theorem findOwned_self {st : Store} {l : Link} (hwf : st.WF)
    (hl : l ∈ st.links) : st.findOwned l.id l.tenant_id = some l := by
  unfold Store.findOwned
  cases hfind : st.links.find? (fun x => x.id == l.id && x.tenant_id == l.tenant_id) with
  | none =>
    have := List.find?_eq_none.mp hfind l hl
    simp at this
  | some x =>
    have hx := List.find?_some hfind
    have hmem := List.mem_of_find?_eq_some hfind
    simp only [Bool.and_eq_true, beq_iff_eq] at hx
    have hxl : x = l := mem_eq_of_nodup_map hwf.1 hmem hl hx.1
    rw [hxl]

/-- In a well-formed store, a stored link is invisible to any other tenant:
the tenant-scoped lookup misses. -/
theorem findOwned_cross {st : Store} {l : Link} {tb : String} (hwf : st.WF)
    (hl : l ∈ st.links) (hne : tb ≠ l.tenant_id) :
    st.findOwned l.id tb = none := by
  unfold Store.findOwned
  refine List.find?_eq_none.mpr (fun x hx hpx => ?_)
  simp only [Bool.and_eq_true, beq_iff_eq] at hpx
  have hxl : x = l := mem_eq_of_nodup_map hwf.1 hx hl hpx.1
  exact hne (hxl ▸ hpx.2).symm

/-- Recording a click does not change the list of link ids. -/
theorem recordClick_map_id (st : Store) (l : Link) (m : RequestMeta) (t : Nat) :
    (recordClick st l m t).links.map Link.id = st.links.map Link.id := by
  simp only [recordClick, List.map_map]
  refine List.map_congr_left (fun x _ => ?_)
  by_cases h : (x.id == l.id) = true <;> simp [Function.comp, h]

/-- Recording a click does not change the list of short codes. -/
theorem recordClick_map_code (st : Store) (l : Link) (m : RequestMeta) (t : Nat) :
    (recordClick st l m t).links.map Link.short_code = st.links.map Link.short_code := by
  simp only [recordClick, List.map_map]
  refine List.map_congr_left (fun x _ => ?_)
  by_cases h : (x.id == l.id) = true <;> simp [Function.comp, h]

/-- Recording a click preserves store well-formedness. -/
theorem recordClick_WF {st : Store} (hwf : st.WF) (l : Link) (m : RequestMeta)
    (t : Nat) : (recordClick st l m t).WF :=
  ⟨by rw [recordClick_map_id]; exact hwf.1,
   by rw [recordClick_map_code]; exact hwf.2⟩

/-- After recording a click on a stored link, the store holds that link with
its counter incremented. -/
theorem recordClick_mem {st : Store} {l : Link} (hl : l ∈ st.links)
    (m : RequestMeta) (t : Nat) :
    ({ l with click_count := l.click_count + 1 } : Link) ∈ (recordClick st l m t).links := by
  simp only [recordClick]
  exact List.mem_map.mpr ⟨l, hl, by simp⟩

/-- Recording a click on link `l` prepends exactly one Click row referencing
`l` to the rows referencing `l`. -/
theorem recordClick_clicksOf (st : Store) (l : Link) (m : RequestMeta) (t : Nat) :
    (recordClick st l m t).clicksOf l.id =
      { id := st.nextClickId, link_id := l.id, clicked_at := t,
        ip_address := m.ip_address, user_agent := m.user_agent } :: st.clicksOf l.id := by
  simp [recordClick, Store.clicksOf]

/-- Resolving the short code of a stored link hits it and performs the
atomic click-recording transition. -/
theorem resolve_hit {st : Store} {l : Link} (hwf : st.WF) (hl : l ∈ st.links)
    (m : RequestMeta) (t : Nat) :
    resolve st l.short_code m t = some (recordClick st l m t, l.original_url) := by
  unfold resolve
  rw [findByCode_self hwf hl]

/-- Main bookkeeping lemma: a batch of `metas.length` resolves of a stored
link's short code succeeds, and in the final store the link's counter and
its number of Click rows have both grown by exactly the batch size. -/
theorem resolveN_spec (st : Store) (l : Link) (metas : List (RequestMeta × Nat))
    (hwf : st.WF) (hl : l ∈ st.links) :
    ∃ st' l', resolveN st l.short_code metas = some st' ∧ st'.WF ∧
      l' ∈ st'.links ∧ l'.id = l.id ∧ l'.short_code = l.short_code ∧
      l'.tenant_id = l.tenant_id ∧
      l'.click_count = l.click_count + metas.length ∧
      (st'.clicksOf l.id).length = (st.clicksOf l.id).length + metas.length := by
  induction metas generalizing st l with
  | nil => exact ⟨st, l, rfl, hwf, hl, rfl, rfl, rfl, rfl, rfl⟩
  | cons p rest ih =>
    obtain ⟨m, t⟩ := p
    have hstep : resolveN st l.short_code ((m, t) :: rest) =
        resolveN (recordClick st l m t) l.short_code rest := by
      simp [resolveN, resolve_hit hwf hl]
    have hwf2 := recordClick_WF hwf l m t
    have hl2 := recordClick_mem hl m t
    obtain ⟨st', l', hrun, hwf', hmem, hid, hcode, hten, hcount, hrows⟩ :=
      ih (recordClick st l m t) { l with click_count := l.click_count + 1 } hwf2 hl2
    refine ⟨st', l', ?_, hwf', hmem, hid, hcode, hten, ?_, ?_⟩
    · rw [hstep]; exact hrun
    · have hcount' : l'.click_count = (l.click_count + 1) + rest.length := hcount
      rw [hcount']
      simp only [List.length_cons]
      omega
    · have hrows' : (st'.clicksOf l.id).length
          = ((recordClick st l m t).clicksOf l.id).length + rest.length := hrows
      rw [recordClick_clicksOf st l m t] at hrows'
      simp only [List.length_cons] at hrows'
      rw [hrows']
      simp only [List.length_cons]
      omega

/-! ## Claim theorems -/

/-- C1: for every Link, after N successful resolves of its short code the
Link's `click_count` equals N and exactly N Click rows reference it; each
successful click recording increments `click_count` in the same store
transition (`recordClick`) that inserts the Click row, so the counter never
drifts from the count of the Link's Clicks. -/
theorem clickCount_equals_click_rows (st : Store) (l : Link)
    (metas : List (RequestMeta × Nat)) (hwf : st.WF) (hl : l ∈ st.links)
    (hcount : l.click_count = 0) (hrows : (st.clicksOf l.id).length = 0) :
    ∃ st' l', resolveN st l.short_code metas = some st' ∧ l' ∈ st'.links ∧
      l'.id = l.id ∧ l'.click_count = metas.length ∧
      (st'.clicksOf l.id).length = metas.length ∧
      l'.click_count = (st'.clicksOf l.id).length := by
  obtain ⟨st', l', hrun, _, hmem, hid, _, _, hc, hr⟩ :=
    resolveN_spec st l metas hwf hl
  rw [hcount] at hc
  rw [hrows] at hr
  simp only [Nat.zero_add] at hc hr
  exact ⟨st', l', hrun, hmem, hid, hc, hr, by rw [hc, hr]⟩

/-- Witness for C1: three resolves of `mycode` on the sample store leave the
link with `click_count = 3` and three Click rows. -/
theorem clickCount_equals_click_rows_witness :
    ∃ st' l',
      resolveN sampleStore "mycode" [(sampleMeta, 1), (sampleMeta, 2), (sampleMeta, 3)]
        = some st' ∧ l' ∈ st'.links ∧ l'.id = "L1" ∧ l'.click_count = 3 ∧
      (st'.clicksOf "L1").length = 3 ∧
      l'.click_count = (st'.clicksOf "L1").length := by
  have h := clickCount_equals_click_rows sampleStore sampleLink
    [(sampleMeta, 1), (sampleMeta, 2), (sampleMeta, 3)]
    (by decide) (by decide) (by decide) (by decide)
  simpa using h

/-- C2: `short_code` uniqueness is global and enforced at creation: when a
create call with an explicit custom code succeeds, any later well-formed
create call reusing the same code fails with `ConflictError`, whatever
tenant either caller belongs to. -/
theorem duplicate_custom_code_conflicts (st st' : Store) (l : Link)
    (u1 u2 code : String) (d1 d2 : Option String) (w1 w2 : Identity)
    (t1 t2 : Nat) (i1 i2 : String) (g1 g2 : Nat → String)
    (h : createLink st u1 (some code) d1 w1 t1 i1 g1 = .ok (st', l))
    (hu2 : isValidUrl u2 = true) :
    createLink st' u2 (some code) d2 w2 t2 i2 g2 = .error .conflictError := by
  unfold createLink at h ⊢
  rw [hu2]
  cases hv : isValidUrl u1 <;> rw [hv] at h
  · simp at h
  · simp only [Bool.not_true, Bool.false_eq_true, if_false] at h ⊢
    cases hc : isValidCode code <;> rw [hc] at h
    · simp at h
    · simp only [Bool.not_true, Bool.false_eq_true, if_false] at h ⊢
      cases hf : (st.findByCode code).isSome <;> rw [hf] at h
      · simp only [Bool.false_eq_true, if_false] at h
        simp only [Except.ok.injEq, Prod.mk.injEq] at h
        have hst : st' = st.insertLink
            { id := i1, original_url := u1, short_code := code, description := d1,
              click_count := 0, created_at := t1, created_by := w1.user_id,
              created_by_name := w1.display_name, tenant_id := w1.tenant_id } := h.1.symm
        have : (st'.findByCode code).isSome = true := by
          rw [hst]
          simp [Store.findByCode, Store.insertLink, List.find?_cons]
        rw [this]
        simp
      · simp at h

/-- Witness for C2: after the sample create of `mycode` under tenant `T1`, a
tenant-`T2` create with the same custom code is rejected with
`ConflictError`. -/
theorem duplicate_custom_code_conflicts_witness :
    createLink sampleStore "https://two.example/x" (some "mycode") none
      sampleIdentity2 1 "L2" sampleGen = .error .conflictError :=
  duplicate_custom_code_conflicts Store.empty sampleStore sampleLink
    "https://example.com/page" "https://two.example/x" "mycode" none none
    sampleIdentity sampleIdentity2 0 1 "L1" "L2" sampleGen sampleGen
    rfl (by decide)

/-- C3: cross-tenant isolation — a link created under tenant A is invisible
to a caller of tenant B ≠ A: `get`, `update`, `delete` and `get_analytics`
on its id all fail with `NotFoundError` (the 404 of the error taxonomy,
never a distinct 403 and never the link data). -/
theorem cross_tenant_access_not_found (st : Store) (l : Link) (tb : String)
    (descr : Option String) (hwf : st.WF) (hl : l ∈ st.links)
    (hne : tb ≠ l.tenant_id) :
    getLink st l.id tb = .error .notFoundError ∧
    updateLink st l.id tb descr = .error .notFoundError ∧
    deleteLink st l.id tb = .error .notFoundError ∧
    getAnalytics st l.id tb = .error .notFoundError := by
  have h := findOwned_cross hwf hl hne
  exact ⟨by simp [getLink, h], by simp [updateLink, h],
    by simp [deleteLink, h], by simp [getAnalytics, h]⟩

/-- Witness for C3: tenant `T2` cannot get, update, delete or read analytics
of the sample tenant-`T1` link. -/
theorem cross_tenant_access_not_found_witness :
    getLink sampleStore "L1" "T2" = .error .notFoundError ∧
    updateLink sampleStore "L1" "T2" (some "d") = .error .notFoundError ∧
    deleteLink sampleStore "L1" "T2" = .error .notFoundError ∧
    getAnalytics sampleStore "L1" "T2" = .error .notFoundError :=
  cross_tenant_access_not_found sampleStore sampleLink "T2" (some "d")
    (by decide) (by decide) (by decide)

/-- C4: for a link owned by the caller's tenant, `get_analytics` succeeds
with `total_clicks` equal to the link's current `click_count`, and
`recent_clicks` equal to the most recent at most 100 of the link's Click
rows, ordered by `clicked_at` descending, each exposing `clicked_at`,
`ip_address` and `user_agent` (the `toRecent` projection): the returned
rows together with the omitted older rows are a permutation of all of the
link's Click rows, every omitted row is no newer than every returned row,
and exactly `min 100 (number of rows)` rows are returned. -/
theorem analytics_payload (st : Store) (l : Link) (hwf : st.WF)
    (hl : l ∈ st.links) :
    ∃ r recent older,
      getAnalytics st l.id l.tenant_id = .ok r ∧
      r.total_clicks = l.click_count ∧
      r.recent_clicks = recent.map toRecent ∧
      (recent ++ older).Perm (st.clicksOf l.id) ∧
      List.Sorted newerFirst recent ∧
      recent.length = min recentBound (st.clicksOf l.id).length ∧
      ∀ c ∈ older, ∀ c' ∈ recent, c.clicked_at ≤ c'.clicked_at := by
  have hfind := findOwned_self hwf hl
  refine ⟨⟨l.id, l.click_count,
      (((st.clicksOf l.id).insertionSort newerFirst).take recentBound).map toRecent⟩,
    ((st.clicksOf l.id).insertionSort newerFirst).take recentBound,
    ((st.clicksOf l.id).insertionSort newerFirst).drop recentBound,
    ?_, rfl, rfl, ?_, ?_, ?_, ?_⟩
  · unfold getAnalytics
    rw [hfind]
  · rw [List.take_append_drop]
    exact List.perm_insertionSort newerFirst (st.clicksOf l.id)
  · exact List.Pairwise.sublist (List.take_sublist _ _)
      (List.sorted_insertionSort newerFirst (st.clicksOf l.id))
  · rw [List.length_take,
      (List.perm_insertionSort newerFirst (st.clicksOf l.id)).length_eq]
  · have hp : List.Pairwise newerFirst
        (((st.clicksOf l.id).insertionSort newerFirst).take recentBound ++
          ((st.clicksOf l.id).insertionSort newerFirst).drop recentBound) := by
      rw [List.take_append_drop]
      exact List.sorted_insertionSort newerFirst (st.clicksOf l.id)
    intro c hc c' hc'
    exact (List.pairwise_append.mp hp).2.2 c' hc' c hc

/-- Witness for C4: analytics of the sample link with two click rows reports
`total_clicks = 2` and both rows, newest first. -/
theorem analytics_payload_witness :
    ∃ r recent older,
      getAnalytics sampleStore2 "L1" "T1" = .ok r ∧
      r.total_clicks = 2 ∧
      r.recent_clicks = recent.map toRecent ∧
      (recent ++ older).Perm (sampleStore2.clicksOf "L1") ∧
      List.Sorted newerFirst recent ∧
      recent.length = min recentBound (sampleStore2.clicksOf "L1").length ∧
      ∀ c ∈ older, ∀ c' ∈ recent, c.clicked_at ≤ c'.clicked_at :=
  analytics_payload sampleStore2 sampleLink2 (by decide) (by decide)

/-- C5: deleting a link cascades to its Click rows — after a successful
`delete`, no Click row references the deleted id and `get_analytics` on
that id fails with `NotFoundError`; moreover every Click row inserted by a
resolve references a link present in the store at that instant (referential
integrity is preserved by the resolve transition). -/
theorem delete_cascades_clicks (st : Store) (id tenant : String) (st' : Store)
    (h : deleteLink st id tenant = .ok st') :
    (∀ c ∈ st'.clicks, c.link_id ≠ id) ∧
    getAnalytics st' id tenant = .error .notFoundError ∧
    (∀ (st0 : Store) (code : String) (m : RequestMeta) (t : Nat)
        (st1 : Store) (url : String),
      (∀ c ∈ st0.clicks, ∃ l0 ∈ st0.links, l0.id = c.link_id) →
      resolve st0 code m t = some (st1, url) →
      ∀ c ∈ st1.clicks, ∃ l1 ∈ st1.links, l1.id = c.link_id) := by
  unfold deleteLink at h
  cases hfind : st.findOwned id tenant <;> rw [hfind] at h
  · simp at h
  · simp only [Except.ok.injEq] at h
    refine ⟨?_, ?_, ?_⟩
    · intro c hc
      rw [← h] at hc
      simp only [List.mem_filter, bne_iff_ne, ne_eq] at hc
      exact hc.2
    · unfold getAnalytics Store.findOwned
      have hnone : st'.links.find? (fun x => x.id == id && x.tenant_id == tenant)
          = none := by
        refine List.find?_eq_none.mpr (fun x hx hpx => ?_)
        rw [← h] at hx
        simp only [List.mem_filter, bne_iff_ne, ne_eq] at hx
        simp only [Bool.and_eq_true, beq_iff_eq] at hpx
        exact hx.2 hpx.1
      rw [hnone]
    · intro st0 code m t st1 url hinv hres c hc
      unfold resolve at hres
      cases hfind0 : st0.findByCode code <;> rw [hfind0] at hres
      · simp at hres
      · rename_i lf
        simp only [Option.some.injEq, Prod.mk.injEq] at hres
        rw [← hres.1] at hc ⊢
        simp only [recordClick, List.mem_cons] at hc
        rcases hc with hc | hc
        · refine ⟨{ lf with click_count := lf.click_count + 1 }, ?_, ?_⟩
          · exact List.mem_map.mpr ⟨lf, List.mem_of_find?_eq_some hfind0, by simp⟩
          · rw [hc]
        · obtain ⟨l0, hl0, hl0id⟩ := hinv c hc
          refine ⟨if l0.id == lf.id
              then { l0 with click_count := l0.click_count + 1 } else l0, ?_, ?_⟩
          · exact List.mem_map.mpr ⟨l0, hl0, rfl⟩
          · by_cases hcase : (l0.id == lf.id) = true
            · rw [if_pos hcase]; exact hl0id
            · rw [if_neg hcase]; exact hl0id

/-- Witness for C5: deleting the sample link leaves no Click row referencing
`L1` and makes its analytics a `NotFoundError`, and resolve preserves
referential integrity. -/
theorem delete_cascades_clicks_witness :
    (∀ c ∈ sampleStoreDel.clicks, c.link_id ≠ "L1") ∧
    getAnalytics sampleStoreDel "L1" "T1" = .error .notFoundError ∧
    (∀ (st0 : Store) (code : String) (m : RequestMeta) (t : Nat)
        (st1 : Store) (url : String),
      (∀ c ∈ st0.clicks, ∃ l0 ∈ st0.links, l0.id = c.link_id) →
      resolve st0 code m t = some (st1, url) →
      ∀ c ∈ st1.clicks, ∃ l1 ∈ st1.links, l1.id = c.link_id) :=
  delete_cascades_clicks sampleStore2 "L1" "T1" sampleStoreDel rfl

/-- C6: resolving a short code that no link currently carries yields the
uniform miss (`none`, the caller's 404), and the outcome is identical for
any two stores in which the code is absent — in particular a store where
the code's link was deleted and a store where it never existed are
indistinguishable through resolve. -/
theorem resolve_miss_uniform (st1 st2 : Store) (code : String)
    (m1 m2 : RequestMeta) (t1 t2 : Nat)
    (h1 : ∀ l ∈ st1.links, l.short_code ≠ code)
    (h2 : ∀ l ∈ st2.links, l.short_code ≠ code) :
    resolve st1 code m1 t1 = none ∧
    resolve st1 code m1 t1 = resolve st2 code m2 t2 := by
  have e1 : st1.findByCode code = none := by
    unfold Store.findByCode
    exact List.find?_eq_none.mpr (fun x hx hpx => h1 x hx (by simpa using hpx))
  have e2 : st2.findByCode code = none := by
    unfold Store.findByCode
    exact List.find?_eq_none.mpr (fun x hx hpx => h2 x hx (by simpa using hpx))
  constructor <;> simp [resolve, e1, e2]

/-- Witness for C6: after deleting the sample link, resolving `mycode` is
`none`, exactly as on the store where it never existed. -/
theorem resolve_miss_uniform_witness :
    resolve sampleStoreDel "mycode" sampleMeta 9 = none ∧
    resolve sampleStoreDel "mycode" sampleMeta 9
      = resolve Store.empty "mycode" sampleMeta 10 :=
  resolve_miss_uniform sampleStoreDel Store.empty "mycode" sampleMeta sampleMeta
    9 10 (by decide) (by decide)

/-- C7: custom-code validation at creation — a create call with an explicit
custom code only succeeds when every character of the code is a letter,
digit, hyphen or underscore; a code containing any other character is
rejected with `ValidationError`; and an otherwise well-formed call whose
code is already in use fails with `ConflictError`. -/
theorem custom_code_validation (st : Store) (u code : String)
    (d : Option String) (w : Identity) (t : Nat) (i : String)
    (g : Nat → String) :
    (∀ st' l, createLink st u (some code) d w t i g = .ok (st', l) →
      code.toList.all allowedChar = true) ∧
    (code.toList.all allowedChar = false →
      createLink st u (some code) d w t i g = .error .validationError) ∧
    (isValidUrl u = true → isValidCode code = true →
      (st.findByCode code).isSome = true →
      createLink st u (some code) d w t i g = .error .conflictError) := by
  refine ⟨?_, ?_, ?_⟩
  · intro st' l h
    unfold createLink at h
    cases hv : isValidUrl u <;> rw [hv] at h
    · simp at h
    · simp only [Bool.not_true, Bool.false_eq_true, if_false] at h
      cases hc : isValidCode code <;> rw [hc] at h
      · simp at h
      · have := hc
        unfold isValidCode at this
        simp only [Bool.and_eq_true] at this
        exact this.2
  · intro hbad
    unfold createLink
    cases hv : isValidUrl u
    · simp
    · have hc : isValidCode code = false := by
        unfold isValidCode
        rw [hbad]
        simp
      simp [hc]
  · intro hu hc hf
    simp [createLink, hu, hc, hf]

/-- Witness for C7: `mycode` passes the charset check, `bad code` (with a
space) is rejected with `ValidationError`, and reusing `mycode` on the
sample store is rejected with `ConflictError`. -/
theorem custom_code_validation_witness :
    "mycode".toList.all allowedChar = true ∧
    createLink Store.empty "https://example.com/page" (some "bad code") none
      sampleIdentity 0 "L1" sampleGen = .error .validationError ∧
    createLink sampleStore "https://two.example/x" (some "mycode") none
      sampleIdentity 1 "L2" sampleGen = .error .conflictError := by
  refine ⟨?_, ?_, ?_⟩
  · exact (custom_code_validation Store.empty "https://example.com/page" "mycode"
      none sampleIdentity 0 "L1" sampleGen).1 sampleStore sampleLink rfl
  · exact (custom_code_validation Store.empty "https://example.com/page" "bad code"
      none sampleIdentity 0 "L1" sampleGen).2.1 (by decide)
  · exact (custom_code_validation sampleStore "https://two.example/x" "mycode"
      none sampleIdentity 1 "L2" sampleGen).2.2 (by decide) (by decide) (by decide)

/-- C8: two resolves of the same valid short code increase that link's
`click_count` by exactly 2 in either serialization order — the increment is
a single atomic store transition, so no interleaving of the two concurrent
resolves under- or double-counts. -/
theorem concurrent_resolves_count_two (st : Store) (l : Link)
    (m1 m2 : RequestMeta) (t1 t2 : Nat) (hwf : st.WF) (hl : l ∈ st.links) :
    ∃ stA lA stB lB,
      resolveN st l.short_code [(m1, t1), (m2, t2)] = some stA ∧
      lA ∈ stA.links ∧ lA.id = l.id ∧ lA.click_count = l.click_count + 2 ∧
      resolveN st l.short_code [(m2, t2), (m1, t1)] = some stB ∧
      lB ∈ stB.links ∧ lB.id = l.id ∧ lB.click_count = l.click_count + 2 := by
  obtain ⟨stA, lA, hrunA, _, hmemA, hidA, _, _, hcA, _⟩ :=
    resolveN_spec st l [(m1, t1), (m2, t2)] hwf hl
  obtain ⟨stB, lB, hrunB, _, hmemB, hidB, _, _, hcB, _⟩ :=
    resolveN_spec st l [(m2, t2), (m1, t1)] hwf hl
  exact ⟨stA, lA, stB, lB, hrunA, hmemA, hidA, hcA, hrunB, hmemB, hidB, hcB⟩

/-- Witness for C8: both orders of two sample resolves of `mycode` leave the
sample link with `click_count = 2`. -/
theorem concurrent_resolves_count_two_witness :
    ∃ stA lA stB lB,
      resolveN sampleStore "mycode" [(sampleMeta, 1), (sampleMeta, 2)] = some stA ∧
      lA ∈ stA.links ∧ lA.id = "L1" ∧ lA.click_count = 2 ∧
      resolveN sampleStore "mycode" [(sampleMeta, 2), (sampleMeta, 1)] = some stB ∧
      lB ∈ stB.links ∧ lB.id = "L1" ∧ lB.click_count = 2 := by
  have h := concurrent_resolves_count_two sampleStore sampleLink sampleMeta
    sampleMeta 1 2 (by decide) (by decide)
  simpa using h

end LinkShortener

namespace Frontend

/-- C9: the frontend request interceptor never blocks or rejects a request
on authentication failure — it is a total function on every MSAL behaviour,
and whenever acquisition throws, resolves without an id token, or no MSAL
instance or signed-in account exists, it resolves with a configuration
carrying no `Authorization` header; a bearer token is attached only in test
mode or when silent or popup acquisition actually produced an id token. -/
theorem interceptor_never_blocks :
    (authInterceptor false none = { authorization := none }) ∧
    (∀ env : MsalEnv, env.accountsResult = .error () →
      authInterceptor false (some env) = { authorization := none }) ∧
    (∀ env : MsalEnv, env.accountsResult = .ok [] →
      authInterceptor false (some env) = { authorization := none }) ∧
    (∀ (env : MsalEnv) (a : String) (accs : List String),
      env.accountsResult = .ok (a :: accs) → env.silent = .resolved none →
      authInterceptor false (some env) = { authorization := none }) ∧
    (∀ (env : MsalEnv) (a : String) (accs : List String) (ec : String),
      env.accountsResult = .ok (a :: accs) → env.silent = .rejected ec →
      ec ∉ interactiveCodes →
      authInterceptor false (some env) = { authorization := none }) ∧
    (∀ (env : MsalEnv) (a : String) (accs : List String) (ec : String),
      env.accountsResult = .ok (a :: accs) → env.silent = .rejected ec →
      (env.popup = .resolved none ∨ ∃ ec2, env.popup = .rejected ec2) →
      authInterceptor false (some env) = { authorization := none }) ∧
    (∀ (tm : Bool) (msal : Option MsalEnv),
      (authInterceptor tm msal).authorization.isSome = true →
      tm = true ∨ ∃ env tok, msal = some env ∧
        (env.silent = .resolved (some tok) ∨ env.popup = .resolved (some tok)) ∧
        (authInterceptor tm msal).authorization = some ("Bearer " ++ tok)) ∧
    (∀ msal, authInterceptor true msal
      = { authorization := some "Bearer test-token" }) := by
  refine ⟨rfl, ?_, ?_, ?_, ?_, ?_, ?_, ?_⟩
  · intro env h
    simp [authInterceptor, h]
  · intro env h
    simp [authInterceptor, h]
  · intro env a accs h1 h2
    simp [authInterceptor, h1, h2]
  · intro env a accs ec h1 h2 h3
    simp [authInterceptor, h1, h2, h3]
  · intro env a accs ec h1 h2 h3
    by_cases hm : ec ∈ interactiveCodes <;>
      rcases h3 with hp | ⟨ec2, hp⟩ <;>
      simp [authInterceptor, h1, h2, hp, hm]
  · intro tm msal h
    cases tm
    · cases msal with
      | none => simp [authInterceptor] at h
      | some env =>
        rcases env with ⟨acc, sil, pop⟩
        cases acc with
        | error u => simp [authInterceptor] at h
        | ok accounts =>
          cases accounts with
          | nil => simp [authInterceptor] at h
          | cons a accs =>
            cases sil with
            | resolved tk =>
              cases tk with
              | none => simp [authInterceptor] at h
              | some tok =>
                refine Or.inr ⟨⟨.ok (a :: accs), .resolved (some tok), pop⟩,
                  tok, rfl, Or.inl rfl, ?_⟩
                simp [authInterceptor]
            | rejected ec =>
              by_cases hm : ec ∈ interactiveCodes
              · cases pop with
                | resolved tk2 =>
                  cases tk2 with
                  | none => simp [authInterceptor, hm] at h
                  | some tok =>
                    refine Or.inr ⟨⟨.ok (a :: accs), .rejected ec,
                      .resolved (some tok)⟩, tok, rfl, Or.inr rfl, ?_⟩
                    simp [authInterceptor, hm]
                | rejected ec2 => simp [authInterceptor, hm] at h
              · simp [authInterceptor, hm] at h
    · exact Or.inl rfl
  · intro msal
    simp [authInterceptor]

/-- Witness for C9: the concrete failure environments all yield a
configuration without an `Authorization` header, while test mode attaches
the mock token. -/
theorem interceptor_never_blocks_witness :
    authInterceptor false (some envThrow) = { authorization := none } ∧
    authInterceptor false (some envNoAccounts) = { authorization := none } ∧
    authInterceptor false (some envSilentNone) = { authorization := none } ∧
    authInterceptor false (some envOtherErr) = { authorization := none } ∧
    authInterceptor false (some envPopupFail) = { authorization := none } ∧
    authInterceptor true none = { authorization := some "Bearer test-token" } := by
  refine ⟨?_, ?_, ?_, ?_, ?_, ?_⟩
  · exact interceptor_never_blocks.2.1 envThrow rfl
  · exact interceptor_never_blocks.2.2.1 envNoAccounts rfl
  · exact interceptor_never_blocks.2.2.2.1 envSilentNone "acct" [] rfl rfl
  · exact interceptor_never_blocks.2.2.2.2.1 envOtherErr "acct" []
      "server_error" rfl rfl (by decide)
  · exact interceptor_never_blocks.2.2.2.2.2.1 envPopupFail "acct" []
      "consent_required" rfl rfl (Or.inr ⟨"user_cancelled", rfl⟩)
  · exact interceptor_never_blocks.2.2.2.2.2.2.2 none

end Frontend


namespace Frontend

/-- Unfolding equation of `bumpDate` on a nonempty record. -/
theorem bumpDate_cons (k v d : Nat) (rest : List (Nat × Nat)) :
    bumpDate ((k, v) :: rest) d
      = if k = d then (k, v + 1) :: rest else (k, v) :: bumpDate rest d := rfl

/-- Unfolding equation of `valAt` on a nonempty record. -/
theorem valAt_cons (k v d : Nat) (rest : List (Nat × Nat)) :
    valAt ((k, v) :: rest) d = if k = d then v else valAt rest d := by
  by_cases h : k = d
  · unfold valAt
    rw [List.find?_cons_of_pos _ (by simpa using h), if_pos h]
  · unfold valAt
    rw [List.find?_cons_of_neg _ (by simpa using h), if_neg h]

/-- Bumping date `d` increments the recorded count for `d` by one. -/
theorem bumpDate_valAt_self (acc : List (Nat × Nat)) (d : Nat) :
    valAt (bumpDate acc d) d = valAt acc d + 1 := by
  induction acc with
  | nil => simp [bumpDate, valAt]
  | cons q rest ih =>
    obtain ⟨k, v⟩ := q
    rw [bumpDate_cons]
    by_cases hk : k = d
    · rw [if_pos hk, valAt_cons, valAt_cons, if_pos hk, if_pos hk]
    · rw [if_neg hk, valAt_cons, valAt_cons, if_neg hk, if_neg hk]
      exact ih

/-- Bumping date `d` leaves every other date's recorded count unchanged. -/
theorem bumpDate_valAt_other (acc : List (Nat × Nat)) (d d' : Nat)
    (hne : d' ≠ d) : valAt (bumpDate acc d) d' = valAt acc d' := by
  induction acc with
  | nil =>
    show valAt [(d, 1)] d' = valAt [] d'
    rw [valAt_cons, if_neg (fun h => hne h.symm)]
  | cons q rest ih =>
    obtain ⟨k, v⟩ := q
    rw [bumpDate_cons]
    by_cases hk : k = d
    · rw [if_pos hk, valAt_cons, valAt_cons]
      have hkd' : k ≠ d' := fun h => hne (h ▸ hk)
      rw [if_neg hkd', if_neg hkd']
    · rw [if_neg hk, valAt_cons, valAt_cons]
      by_cases hk' : k = d'
      · rw [if_pos hk', if_pos hk']
      · rw [if_neg hk', if_neg hk']
        exact ih

/-- Bumping a date adds one to the total of all recorded counts. -/
theorem bumpDate_sum (acc : List (Nat × Nat)) (d : Nat) :
    ((bumpDate acc d).map Prod.snd).sum = (acc.map Prod.snd).sum + 1 := by
  induction acc with
  | nil => simp [bumpDate]
  | cons q rest ih =>
    obtain ⟨k, v⟩ := q
    rw [bumpDate_cons]
    by_cases hk : k = d
    · rw [if_pos hk]
      simp only [List.map_cons, List.sum_cons]
      omega
    · rw [if_neg hk]
      simp only [List.map_cons, List.sum_cons, ih]
      omega

/-- A date is a key of the bumped record iff it was a key before or is the
bumped date. -/
theorem bumpDate_keys_mem (acc : List (Nat × Nat)) (d k : Nat) :
    k ∈ (bumpDate acc d).map Prod.fst ↔ k ∈ acc.map Prod.fst ∨ k = d := by
  induction acc with
  | nil => simp [bumpDate]
  | cons q rest ih =>
    obtain ⟨k0, v⟩ := q
    rw [bumpDate_cons]
    by_cases hk : k0 = d
    · rw [if_pos hk]
      simp only [List.map_cons, List.mem_cons]
      subst hk
      constructor
      · intro h
        exact h.elim (fun h => Or.inl (Or.inl h)) (fun h => Or.inl (Or.inr h))
      · rintro ((h | h) | h)
        · exact Or.inl h
        · exact Or.inr h
        · exact Or.inl h
    · rw [if_neg hk]
      simp only [List.map_cons, List.mem_cons, ih]
      tauto

/-- Bumping preserves distinctness of the date keys. -/
theorem bumpDate_keys_nodup (acc : List (Nat × Nat)) (d : Nat)
    (h : (acc.map Prod.fst).Nodup) :
    ((bumpDate acc d).map Prod.fst).Nodup := by
  induction acc with
  | nil => simp [bumpDate]
  | cons q rest ih =>
    obtain ⟨k, v⟩ := q
    simp only [List.map_cons, List.nodup_cons] at h
    rw [bumpDate_cons]
    by_cases hk : k = d
    · rw [if_pos hk]
      simp only [List.map_cons, List.nodup_cons]
      exact h
    · rw [if_neg hk]
      simp only [List.map_cons, List.nodup_cons]
      refine ⟨?_, ih h.2⟩
      rw [bumpDate_keys_mem]
      rintro (hm | hm)
      · exact h.1 hm
      · exact hk hm

/-- In a record with distinct keys, each stored pair's count is the value
recorded for its key. -/
theorem pair_val {acc : List (Nat × Nat)} (h : (acc.map Prod.fst).Nodup)
    {p : Nat × Nat} (hp : p ∈ acc) : valAt acc p.1 = p.2 := by
  induction acc with
  | nil => cases hp
  | cons q rest ih =>
    obtain ⟨k, v⟩ := q
    simp only [List.map_cons, List.nodup_cons] at h
    rcases List.mem_cons.mp hp with hq | hq
    · rw [hq, valAt_cons]
      simp
    · have hne : k ≠ p.1 := by
        intro he
        exact h.1 (he ▸ List.mem_map_of_mem Prod.fst hq)
      rw [valAt_cons, if_neg hne]
      exact ih h.2 hq

/-- Folding the clicks into the record: the count recorded for date `d`
grows by the number of folded clicks falling on `d`. -/
theorem foldl_bump_valAt (dateKey : Nat → Nat) (cs : List FrontClick)
    (acc : List (Nat × Nat)) (d : Nat) :
    valAt (cs.foldl (fun a c => bumpDate a (dateKey c.clicked_at)) acc) d
      = valAt acc d + (cs.filter (fun c => dateKey c.clicked_at == d)).length := by
  induction cs generalizing acc with
  | nil => simp
  | cons c cs ih =>
    simp only [List.foldl_cons, ih]
    by_cases hd : dateKey c.clicked_at = d
    · rw [hd, bumpDate_valAt_self]
      simp only [List.filter_cons, hd]
      rw [if_pos (by simp)]
      simp only [List.length_cons]
      omega
    · rw [bumpDate_valAt_other _ _ _ (fun h => hd h.symm)]
      simp only [List.filter_cons]
      rw [if_neg (by simpa using hd)]

/-- Folding the clicks into the record: the total of all recorded counts
grows by the number of folded clicks. -/
theorem foldl_bump_sum (dateKey : Nat → Nat) (cs : List FrontClick)
    (acc : List (Nat × Nat)) :
    ((cs.foldl (fun a c => bumpDate a (dateKey c.clicked_at)) acc).map Prod.snd).sum
      = (acc.map Prod.snd).sum + cs.length := by
  induction cs generalizing acc with
  | nil => simp
  | cons c cs ih =>
    simp only [List.foldl_cons, ih, bumpDate_sum, List.length_cons]
    omega

/-- Folding the clicks into the record preserves distinctness of the date
keys. -/
theorem foldl_bump_keys_nodup (dateKey : Nat → Nat) (cs : List FrontClick)
    (acc : List (Nat × Nat)) (h : (acc.map Prod.fst).Nodup) :
    ((cs.foldl (fun a c => bumpDate a (dateKey c.clicked_at)) acc).map Prod.fst).Nodup := by
  induction cs generalizing acc with
  | nil => exact h
  | cons c cs ih =>
    simp only [List.foldl_cons]
    exact ih _ (bumpDate_keys_nodup _ _ h)

end Frontend

namespace Frontend

/-- C10: `getClicksByDate` returns at most 7 date–count pairs, sorted by
date ascending, each pair's count being the number of input clicks falling
on that calendar date (under the abstract calendar-date function
`dateKey`), and the counts sum to at most the number of input clicks. -/
theorem clicks_by_date_spec (dateKey : Nat → Nat) (clicks : List FrontClick) :
    (getClicksByDate dateKey clicks).length ≤ 7 ∧
    List.Sorted dateLE (getClicksByDate dateKey clicks) ∧
    (∀ p ∈ getClicksByDate dateKey clicks,
      p.2 = (clicks.filter (fun c => dateKey c.clicked_at == p.1)).length) ∧
    ((getClicksByDate dateKey clicks).map Prod.snd).sum ≤ clicks.length := by
  have hdef : getClicksByDate dateKey clicks
      = (List.insertionSort dateLE
          (clicks.foldl (fun a c => bumpDate a (dateKey c.clicked_at)) [])).drop
        ((List.insertionSort dateLE
          (clicks.foldl (fun a c => bumpDate a (dateKey c.clicked_at)) [])).length - 7) := rfl
  rw [hdef]
  refine ⟨?_, ?_, ?_, ?_⟩
  · rw [List.length_drop]
    omega
  · exact List.Pairwise.sublist (List.drop_sublist _ _)
      (List.sorted_insertionSort dateLE _)
  · intro p hp
    have hmem : p ∈ clicks.foldl (fun a c => bumpDate a (dateKey c.clicked_at)) [] :=
      (List.perm_insertionSort dateLE _).mem_iff.mp (List.mem_of_mem_drop hp)
    have hnodup := foldl_bump_keys_nodup dateKey clicks [] (by simp)
    have hval := pair_val hnodup hmem
    have hfold := foldl_bump_valAt dateKey clicks [] p.1
    rw [hval] at hfold
    simpa [valAt] using hfold
  · have hsplit :
        ((List.insertionSort dateLE
            (clicks.foldl (fun a c => bumpDate a (dateKey c.clicked_at)) [])).map
          Prod.snd).sum
        = (((List.insertionSort dateLE
              (clicks.foldl (fun a c => bumpDate a (dateKey c.clicked_at)) [])).take
            ((List.insertionSort dateLE
              (clicks.foldl (fun a c => bumpDate a (dateKey c.clicked_at)) [])).length - 7)).map
            Prod.snd).sum
          + (((List.insertionSort dateLE
              (clicks.foldl (fun a c => bumpDate a (dateKey c.clicked_at)) [])).drop
            ((List.insertionSort dateLE
              (clicks.foldl (fun a c => bumpDate a (dateKey c.clicked_at)) [])).length - 7)).map
            Prod.snd).sum := by
      rw [← List.sum_append, ← List.map_append, List.take_append_drop]
    have hperm :
        ((List.insertionSort dateLE
            (clicks.foldl (fun a c => bumpDate a (dateKey c.clicked_at)) [])).map
          Prod.snd).sum
        = ((clicks.foldl (fun a c => bumpDate a (dateKey c.clicked_at)) []).map
            Prod.snd).sum :=
      ((List.perm_insertionSort dateLE _).map Prod.snd).sum_eq
    have htot := foldl_bump_sum dateKey clicks []
    simp only [List.map_nil, List.sum_nil, Nat.zero_add] at htot
    omega

/-- Witness for C10: on the three sample clicks (two on day 0, one on day 1)
the chart data is short, sorted, correctly counted and totals at most the
input size. -/
theorem clicks_by_date_spec_witness :
    (getClicksByDate sampleDateKey sampleClicks).length ≤ 7 ∧
    ((getClicksByDate sampleDateKey sampleClicks).map Prod.snd).sum
      ≤ sampleClicks.length ∧
    (2 : Nat) = (sampleClicks.filter
      (fun c => sampleDateKey c.clicked_at == (0 : Nat))).length := by
  have h := clicks_by_date_spec sampleDateKey sampleClicks
  exact ⟨h.1, h.2.2.2, h.2.2.1 (0, 2) (by decide)⟩

end Frontend
